import Mathlib

/-!
Verification of the trial-segmentation core of the VR-foraging primary-data
packaging repository: a shallow embedding of `code/helper.py` and
`code/processing.py` (`DatasetProcessor.process`), with theorems settling the
frozen claims about it.

Timestamps (float seconds in the source) are modelled as rationals; `NaN`
("absent") values are modelled as `Option`; Python exceptions are modelled by
an explicit error type threaded through `Except`.
-/

namespace VRForaging

/-- Timestamps: float seconds on a single logical clock, modelled as `ℚ`. -/
abbrev Time := ℚ

/-! ### `code/helper.py` -/

/-- `slice_by_index(df, start_time, end_time)` from `helper.py`:
`df[(df.index >= start_time) & (df.index < end_time)]` — rows of a
time-indexed table with `start_time ≤ t < end_time`, order preserved. -/
def slice_by_index {α : Type} (df : List (Time × α)) (start_time end_time : Time) :
    List (Time × α) :=
  df.filter (fun r => decide (start_time ≤ r.1) && decide (r.1 < end_time))

/-- `np.searchsorted(a, v, side="left")` on a sorted ascending list:
the insertion point, i.e. the number of elements strictly below `v`. -/
def searchsorted_left (a : List ℚ) (v : ℚ) : ℕ :=
  a.countP (fun x => decide (x < v))

/-- `np.abs`, written so that it evaluates by kernel reduction. -/
def rat_abs (x : ℚ) : ℚ := if x < 0 then -x else x

/-- Subtraction on `ℚ`, written so that it evaluates by kernel reduction
(`Rat.sub` is `@[irreducible]`). -/
def rat_sub (a b : ℚ) : ℚ := mkRat (a.num * b.den - b.num * a.den) (a.den * b.den)

/-- `get_closest_from_timestamp(timestamps, df, search_mode="closest")` from
`helper.py`, for a single target `t` against the sorted index `a` (the source
is vectorised over targets but each target is handled independently):
`idx_left = clip(searchsorted(a, t, "left"), 0, n-1)`,
`idx_right = clip(searchsorted(a, t, "left") - 1, 0, n-1)`, and the value at
`idx_left` is chosen when `|a[idx_left] - t| ≤ |a[idx_right] - t|`.
`none` models the IndexError a lookup on an empty index would raise. -/
def get_closest_from_timestamp (a : List ℚ) (t : ℚ) : Option ℚ :=
  match a with
  | [] => none
  | _ :: _ =>
    let n := a.length
    let ins := searchsorted_left a t
    let idx_left := Nat.min ins (n - 1)
    let idx_right := Nat.min (ins - 1) (n - 1)
    let left_diff := rat_abs (rat_sub (a.getD idx_left 0) t)
    let right_diff := rat_abs (rat_sub (a.getD idx_right 0) t)
    some (if left_diff ≤ right_diff then a.getD idx_left 0 else a.getD idx_right 0)

/-! ### Harp register rows and the version-aware field extractors -/

/-- Harp message types; the extractors only keep `WRITE` rows. -/
inductive MessageType where
  | write
  | read
  | event

deriving DecidableEq

/-- A row of the `HarpBehavior.PwmStart` register table. -/
structure PwmRow where
  message_type : MessageType
  pwmDO2 : Bool

deriving DecidableEq

/-- A row of the `HarpBehavior.OutputSet` register table. -/
structure OutputRow where
  message_type : MessageType
  supplyPort0 : Bool

deriving DecidableEq

/-- A row of the `HarpOlfactometer.EndValveState` register table. -/
structure ValveRow where
  message_type : MessageType
  endValve0 : Bool

deriving DecidableEq

/-- A row of the `HarpTreadmill.BrakeCurrentSetPoint` register table. -/
structure BrakeRow where
  message_type : MessageType
  brake_current_set_point : ℚ

deriving DecidableEq

/-- `series.shift(1, fill_value=False)` on the value column of a boolean
series: the previous row's value, `false` before the first row. -/
def shift_fill_false (vs : List Bool) : List Bool :=
  false :: vs.dropLast

/-- The rising-edge filter inside `DatasetProcessor._parse_odor_onset`:
`odor_onset[(odor_onset) & (~odor_onset.shift(1, fill_value=False))]` —
keep the rows whose value is asserted while the shifted (previous) value
is not. -/
def rising_edges (s : List (Time × Bool)) : List (Time × Bool) :=
  (s.zip (shift_fill_false (s.map (fun r => r.2)))).filterMap
    (fun p => if p.1.2 && !p.2 then some p.1 else none)

/-- Modelled from the spec (reference semantics for the rising-edge detector,
to be compared against the source-derived `rising_edges`): walk the series
carrying the previous sample's value, the first row counting as preceded by
`false`, and keep a row exactly when it is asserted and the carried previous
value is not. -/
def rising_edges_spec : Bool → List (Time × Bool) → List (Time × Bool)
  | _, [] => []
  | prev, r :: rest =>
    (if r.2 && !prev then [r] else []) ++ rising_edges_spec r.2 rest

/-! ### Data model of the streams `DatasetProcessor.process` consumes -/

/-- A parsed semantic version (the source compares `semver.Version` values). -/
structure SemVer where
  major : ℕ
  minor : ℕ
  patch : ℕ

deriving DecidableEq

/-- `semver.Version` ordering on (major, minor, patch). -/
def SemVer.lt (a b : SemVer) : Bool :=
  a.major < b.major
    || (a.major == b.major
        && (a.minor < b.minor || (a.minor == b.minor && a.patch < b.patch)))

/-- `semver.Version.parse("0.7.0")`, the cut-off used by the version gates. -/
def semver_0_7_0 : SemVer := ⟨0, 7, 0⟩

/-- An `OdorSpecification` payload: channel index and concentration. -/
structure OdorSpecification where
  index : ℤ
  concentration : ℚ

deriving DecidableEq

/-- `data` payload of one `SoftwareEvents.ActiveSite` row. -/
structure SiteData where
  label : String
  start_position : ℚ
  length : ℚ
  odor_specification : Option OdorSpecification

deriving DecidableEq

/-- `data` payload of one `SoftwareEvents.ActivePatch` row. -/
structure PatchData where
  label : String
  state_index : ℤ
  odor_specification : Option OdorSpecification

deriving DecidableEq

/-- `data` payload of one `SoftwareEvents.WaitRewardOutcome` row. -/
structure WaitRow where
  is_successful_wait : Bool

deriving DecidableEq

/-- The streams `DatasetProcessor` reads from the `contraqctor` dataset, each
already parsed into a time-indexed table (rows in on-disk order; a missing
optional `WaitRewardOutcome` stream is the empty list, per the
`FileNotFoundError` fallback in `_parse_wait_reward_outcome`). -/
structure Dataset where
  version : SemVer
  active_site : List (Time × SiteData)
  active_patch : List (Time × PatchData)
  block : List Time
  pwm_start : List (Time × PwmRow)
  output_set : List (Time × OutputRow)
  end_valve_state : List (Time × ValveRow)
  brake_current_set_point : List (Time × BrakeRow)
  give_reward : List (Time × Option ℚ)
  wait_reward_outcome : List (Time × WaitRow)

/-- The Python exceptions the modelled code can raise. -/
inductive ProcErr where
  | nameError
  | assertionError (msg : String)
  | datasetProcessorError (msg : String)
  | notImplementedError (msg : String)
  | typeError (msg : String)
  | indexError
  | keyError

deriving DecidableEq

/-! ### Field extractors (`DatasetProcessor._parse_*`) -/

/-- `_parse_speaker_choice_feedback`: `PwmStart` rows with a WRITE message and
`PwmDO2` asserted. -/
def parse_speaker_choice_feedback (ds : Dataset) : List (Time × PwmRow) :=
  ds.pwm_start.filter (fun r => decide (r.2.message_type = .write) && r.2.pwmDO2)

/-- `_parse_water_delivery`: `OutputSet` rows with a WRITE message and
`SupplyPort0` asserted, reduced to the `SupplyPort0` column. -/
def parse_water_delivery (ds : Dataset) : List (Time × Bool) :=
  (ds.output_set.filter (fun r => decide (r.2.message_type = .write) && r.2.supplyPort0)).map
    (fun r => (r.1, r.2.supplyPort0))

/-- `_parse_odor_onset`: `EndValveState` WRITE rows, `EndValve0` column,
rising edges only. -/
def parse_odor_onset (ds : Dataset) : List (Time × Bool) :=
  rising_edges
    ((ds.end_valve_state.filter (fun r => decide (r.2.message_type = .write))).map
      (fun r => (r.1, r.2.endValve0)))

/-- `_parse_friction`: `BrakeCurrentSetPoint` WRITE rows reduced to the
set-point column. -/
def parse_friction (ds : Dataset) : List (Time × ℚ) :=
  (ds.brake_current_set_point.filter (fun r => decide (r.2.message_type = .write))).map
    (fun r => (r.1, r.2.brake_current_set_point))

/-- `_parse_reward_metadata`: the raw `GiveReward` table (`data` column is the
reward amount, `none` for a null payload). -/
def parse_reward_metadata (ds : Dataset) : List (Time × Option ℚ) := ds.give_reward

/-- `_parse_wait_reward_outcome` (missing stream already collapsed to `[]`). -/
def parse_wait_reward_outcome (ds : Dataset) : List (Time × WaitRow) := ds.wait_reward_outcome

/-- `get_olfactometer_channel_count`: 3 channels below version 0.7.0, else
`NotImplementedError` (the message string is the source's, typo included). -/
def get_olfactometer_channel_count (version : SemVer) : Except ProcErr ℕ :=
  if version.lt semver_0_7_0 then .ok 3
  else .error (.notImplementedError
    "Olfactometer channel count parsing not implemented for rig versions < 0.7.0")

/-- Python list item assignment `l[i] = v`: negative indices wrap once from
the end, out-of-range raises `IndexError`. -/
def py_list_set (l : List ℚ) (i : ℤ) (v : ℚ) : Except ProcErr (List ℚ) :=
  let n : ℤ := l.length
  let j := if i < 0 then i + n else i
  if 0 ≤ j ∧ j < n then .ok (l.set j.toNat v) else .error .indexError

/-- `process_odor_concentration`: a zero vector of `n_channels` entries, with
the specified channel set to the specified concentration below version 0.7.0;
`NotImplementedError` at or above it. -/
def process_odor_concentration (version : SemVer)
    (odor_specification : Option OdorSpecification) (n_channels : ℕ) :
    Except ProcErr (List ℚ) :=
  let concentration := List.replicate n_channels (0 : ℚ)
  match odor_specification with
  | none => .ok concentration
  | some spec =>
    if version.lt semver_0_7_0 then
      py_list_set concentration spec.index spec.concentration
    else .error (.notImplementedError
      "OdorSpecification processing not implemented for rig versions >= 0.7.0")

/-! ### Structural join (lines 150–174 of `processing.py`) -/

/-- Insert one row into a time-sorted list, before the first row with a
timestamp `≥` its own. -/
def insert_by_time {α : Type} (x : Time × α) : List (Time × α) → List (Time × α)
  | [] => [x]
  | y :: ys => if y.1 < x.1 then y :: insert_by_time x ys else x :: y :: ys

/-- `DataFrame.sort_index()`: sort rows by timestamp (pandas leaves the order
of duplicate timestamps unspecified; this model keeps it stable). -/
def sort_by_time {α : Type} : List (Time × α) → List (Time × α)
  | [] => []
  | x :: xs => insert_by_time x (sort_by_time xs)

/-- The right-hand lookup of `pd.merge_asof(..., direction="backward")`: the
last row of the (sorted) right table with timestamp `≤ t`. -/
def last_at_or_before {α : Type} (rows : List (Time × α)) (t : Time) : Option (Time × α) :=
  (rows.filter (fun r => decide (r.1 ≤ t))).getLast?

/-- `patches["patch_count"] = range(len(patches))` (and likewise
`block_count`): attach the zero-based emission-order counter in on-disk order,
before any sorting. -/
def with_counts {α : Type} (rows : List (Time × α)) : List (Time × (α × ℕ)) :=
  rows.enum.map (fun p => (p.2.1, (p.2.2, p.1)))

/-- One row of `merged` after both backward as-of joins and the `patch_index`
column: the site row joined to its most recent patch (payload and emission
counter) and most recent block counter (`none` models the `NaN` a site with no
preceding block row gets). -/
structure MergedRow where
  time : Time
  data : SiteData
  patch_data : PatchData
  patch_count : ℕ
  patch_index : ℤ
  block_count : Option ℕ

deriving DecidableEq

/-- The join for one site row: its most recent patch row (payload, counter)
and most recent block counter. A site with no preceding patch makes
`merged["patch_data"].apply(lambda d: d["state_index"])` subscript `NaN`,
a `TypeError`. -/
def merge_one (patches : List (Time × (PatchData × ℕ))) (blocks : List (Time × (Unit × ℕ)))
    (r : Time × SiteData) : Except ProcErr MergedRow :=
  match last_at_or_before patches r.1 with
  | none => .error (.typeError "patch_data is NaN (float is not subscriptable)")
  | some p =>
    .ok { time := r.1, data := r.2, patch_data := p.2.1, patch_count := p.2.2,
          patch_index := p.2.1.state_index,
          block_count := (last_at_or_before blocks r.1).map (fun b => b.2.2) }

/-- Row-by-row application of `merge_one` along the sorted site table. -/
def merge_rows (patches : List (Time × (PatchData × ℕ)))
    (blocks : List (Time × (Unit × ℕ))) :
    List (Time × SiteData) → Except ProcErr (List MergedRow)
  | [] => .ok []
  | r :: rest =>
    match merge_one patches blocks r with
    | .error e => .error e
    | .ok m =>
      match merge_rows patches blocks rest with
      | .error e => .error e
      | .ok l => .ok (m :: l)

/-- Lines 150–174: sort the three boundary streams, attach the counters, and
backward as-of join patches then blocks onto the sites. -/
def build_merged (ds : Dataset) : Except ProcErr (List MergedRow) :=
  merge_rows (sort_by_time (with_counts ds.active_patch))
    (sort_by_time (with_counts (ds.block.map (fun t => (t, ())))))
    (sort_by_time ds.active_site)

/-! ### Scan environment and mutable scan state (lines 176–196) -/

/-- The canonical signals and per-run constants read inside the loop. -/
structure ScanEnv where
  version : SemVer
  choice_feedback : List (Time × PwmRow)
  water_delivery : List (Time × Bool)
  reward_metadata : List (Time × Option ℚ)
  odor_onset : List (Time × Bool)
  friction : List (Time × ℚ)
  olfactometer_channel_count : ℕ
  wait_reward_outcome : List (Time × WaitRow)
  unique_site_labels : List String

deriving DecidableEq

/-- The mutable state variables of lines 185–195. `current_block_idx` is an
`Option` because after a block change it holds the joined `block_count`, which
is `NaN` (`none`) for a site with no preceding block row. -/
structure ScanState where
  current_friction : ℚ
  current_block_idx : Option ℕ
  current_patch_idx : ℕ
  current_patch_in_block_idx : ℕ
  current_site_in_patch_idx : ℕ
  current_site_in_block_idx : ℕ
  site_by_type_in_patch_counter : List (String × ℕ)

deriving DecidableEq, Inhabited

/-- `pd.Series.unique()`: distinct values in first-occurrence order. -/
def unique_first (seen : List String) : List String → List String
  | [] => []
  | x :: xs => if x ∈ seen then unique_first seen xs else x :: unique_first (x :: seen) xs

/-- `dict.fromkeys(unique_site_labels, 0)`. -/
def counter_from_keys (labels : List String) : List (String × ℕ) :=
  labels.map (fun l => (l, 0))

/-- Dictionary lookup `counter[label]` (`none` models a `KeyError`). -/
def counter_get (c : List (String × ℕ)) (k : String) : Option ℕ :=
  (c.find? (fun p => p.1 == k)).map (fun p => p.2)

/-- `counter[label] += 1` on a present key. -/
def counter_incr (c : List (String × ℕ)) (k : String) : List (String × ℕ) :=
  c.map (fun p => if p.1 == k then (p.1, p.2 + 1) else p)

/-- `!=` under float-`NaN` semantics for the joined `block_count` column:
`none` models `NaN`, which compares unequal to everything, itself included,
so `nan_eq` is true only on two equal concrete counters. -/
def nan_eq (a b : Option ℕ) : Bool :=
  match a, b with
  | some x, some y => x == y
  | _, _ => false

/-- The output trial record: the `Site` model consumed by the packaging
adapter. `models.py` is not among the provided sources; the fields are
reconstructed from the keyword arguments of the `Site(...)` constructor call
(lines 303–337) and the spec's §3 "Trial Record" (absent/`NaN`/`None` values
modelled as `none`). -/
structure Site where
  start_time : Time
  stop_time : Time
  start_position : ℚ
  length : ℚ
  site_label : String
  friction : ℚ
  patch_label : String
  odor_concentration : List ℚ
  patch_index : ℕ
  patch_in_block_index : ℕ
  site_index : ℕ
  site_in_patch_index : ℕ
  site_in_block_index : ℕ
  site_by_type_in_patch_index : ℕ
  odor_onset_time : Option Time
  reward_onset_time : Option Time
  reward_amount : Option ℚ
  reward_probability : Option ℚ
  reward_available : Option ℚ
  has_reward : Bool
  choice_cue_time : Option Time
  has_choice : Bool
  reward_delay_duration : Option ℚ
  has_waited_reward_delay : Option Bool
  block_index : Option ℕ

deriving DecidableEq, Inhabited

/-! ### Per-interval resolution (lines 255–301) -/

/-- Lines 257–273: odor-onset resolution for one site interval. If the slice
is empty but the site's configuration specifies an odor, re-check the 2 ms
(`1/500` s) window immediately before the site start over the full onset
series; an onset there yields the site's own start time, otherwise the
outcome is governed by `raise_on_error`. -/
def resolve_odor_onset (raise_on_error : Bool) (odor_onset : List (Time × Bool))
    (site_odor_onset : List (Time × Bool))
    (odor_specification : Option OdorSpecification) (this_timestamp : Time) :
    Except ProcErr (Option Time) :=
  if site_odor_onset.isEmpty && odor_specification.isSome then
    let odor_onset_before_site := odor_onset.filter
      (fun r => decide (r.1 < this_timestamp) && decide (rat_sub this_timestamp (mkRat 2 1000) ≤ r.1))
    if odor_onset_before_site.isEmpty then
      if raise_on_error then .error (.datasetProcessorError "No odor onset found in site interval")
      else .ok none
    else .ok (some this_timestamp)
  else .ok ((site_odor_onset.head?).map (fun r => r.1))

/-- Lines 275–294: reward resolution for one site interval. An empty slice or
an all-zero/absent payload (`fillna(0).eq(0).all()`) yields no reward; a
non-zero payload with no water delivery is governed by `raise_on_error`; with
one or more (warn) metadata rows the result is the first water-delivery
timestamp. -/
def resolve_reward (raise_on_error : Bool)
    (reward_metadata_sliced : List (Time × Option ℚ))
    (site_water_delivery : List (Time × Bool)) : Except ProcErr (Option Time) :=
  if reward_metadata_sliced.isEmpty
      || reward_metadata_sliced.all (fun r => r.2.getD 0 == 0) then
    .ok none
  else if site_water_delivery.length == 0 then
    if raise_on_error then
      .error (.datasetProcessorError "Valid reward metadata found but no water delivery in site interval")
    else .ok none
  else
    .ok ((site_water_delivery.head?).map (fun r => r.1))

/-- One iteration of the forward scan (the loop body, lines 201–338), as it
reads with the single dead statement removed: line 224 slices the unbound name
`patch_state_at_reward` (modelled faithfully by `process_one_site_raw`), and
line 228 immediately rebinds `site_patch_state_at_reward` to an empty table —
this function uses that empty table, the minimal repair the surrounding code
itself dictates. Returns the emitted record and the updated scan state. -/
def process_one_site (raise_on_error : Bool) (env : ScanEnv) (st : ScanState)
    (r0 r1 : MergedRow) (i : ℕ) : Except ProcErr (Site × ScanState) :=
  let this_timestamp := r0.time
  let next_timestamp := r1.time
  let site_choice_feedback := slice_by_index env.choice_feedback this_timestamp next_timestamp
  if 1 < site_choice_feedback.length then
    .error (.assertionError "Multiple speaker choices in site interval")
  else
  let site_water_delivery := slice_by_index env.water_delivery this_timestamp next_timestamp
  if 1 < site_water_delivery.length then
    .error (.assertionError "Multiple water deliveries in site interval")
  else
  let site_odor_onset := slice_by_index env.odor_onset this_timestamp next_timestamp
  let this_friction := slice_by_index env.friction this_timestamp next_timestamp
  let current_friction :=
    match this_friction.getLast? with
    | some p => p.2
    | none => st.current_friction
  -- line 228: `site_patch_state_at_reward = pd.DataFrame()`, so the assert on
  -- line 229 passes and the reward_amount/probability/available fields are NaN
  let this_block_idx := r0.block_count
  let this_patch_idx := r0.patch_count
  -- lines 235–237: eager increments
  let site_in_patch_eager := st.current_site_in_patch_idx + 1
  let site_in_block_eager := st.current_site_in_block_idx + 1
  -- lines 239–244: patch change
  let patch_changed := this_patch_idx != st.current_patch_idx
  let current_patch_idx := if patch_changed then this_patch_idx else st.current_patch_idx
  let current_site_in_patch_idx := if patch_changed then 0 else site_in_patch_eager
  let patch_in_block_after_patch :=
    if patch_changed then st.current_patch_in_block_idx + 1 else st.current_patch_in_block_idx
  let counter_after_patch :=
    if patch_changed then counter_from_keys env.unique_site_labels
    else st.site_by_type_in_patch_counter
  -- lines 246–251: block change
  let block_changed := !(nan_eq this_block_idx st.current_block_idx)
  let current_block_idx := if block_changed then this_block_idx else st.current_block_idx
  let current_patch_in_block_idx := if block_changed then 0 else patch_in_block_after_patch
  let current_site_in_block_idx := if block_changed then 0 else site_in_block_eager
  -- line 253: `site_by_type_in_patch_counter[this_site["label"]] += 1`
  match counter_get counter_after_patch r0.data.label with
  | none => .error .keyError
  | some label_count =>
    let counter := counter_incr counter_after_patch r0.data.label
    let choice_time := (site_choice_feedback.head?).map (fun r => r.1)
    match resolve_odor_onset raise_on_error env.odor_onset site_odor_onset
        r0.data.odor_specification this_timestamp with
    | .error e => .error e
    | .ok odor_onset_time =>
      let reward_metadata_sliced :=
        slice_by_index env.reward_metadata this_timestamp next_timestamp
      match resolve_reward raise_on_error reward_metadata_sliced site_water_delivery with
      | .error e => .error e
      | .ok reward_onset_time =>
        let wait_reward_outcome_sliced :=
          slice_by_index env.wait_reward_outcome this_timestamp next_timestamp
        let has_waited_reward_delay :=
          (wait_reward_outcome_sliced.head?).map (fun r => r.2.is_successful_wait)
        match process_odor_concentration env.version r0.patch_data.odor_specification
            env.olfactometer_channel_count with
        | .error e => .error e
        | .ok odor_concentration =>
          .ok
            ({ start_time := this_timestamp
               stop_time := next_timestamp
               start_position := r0.data.start_position
               length := r0.data.length
               site_label := r0.data.label
               friction := current_friction
               patch_label := r0.patch_data.label
               odor_concentration := odor_concentration
               patch_index := current_patch_idx
               patch_in_block_index := current_patch_in_block_idx
               site_index := i
               site_in_patch_index := current_site_in_patch_idx
               site_in_block_index := current_site_in_block_idx
               -- `counter[label] - 1` read back after the `+= 1`
               site_by_type_in_patch_index := label_count
               odor_onset_time := odor_onset_time
               reward_onset_time := reward_onset_time
               reward_amount := none
               reward_probability := none
               reward_available := none
               has_reward := reward_onset_time.isSome
               choice_cue_time := choice_time
               has_choice := !site_choice_feedback.isEmpty
               reward_delay_duration :=
                 match reward_onset_time, odor_onset_time with
                 | some r, some o => some (rat_sub r o)
                 | _, _ => none
               has_waited_reward_delay := has_waited_reward_delay
               block_index := this_block_idx },
             { current_friction := current_friction
               current_block_idx := current_block_idx
               current_patch_idx := current_patch_idx
               current_patch_in_block_idx := current_patch_in_block_idx
               current_site_in_patch_idx := current_site_in_patch_idx
               current_site_in_block_idx := current_site_in_block_idx
               site_by_type_in_patch_counter := counter })

/-- The loop body exactly as the source executes it: the two asserts run, the
slices up to line 222 are computed, and then line 224 evaluates
`slice_by_index(patch_state_at_reward, ...)` — but the statement binding
`patch_state_at_reward` (line 180) is commented out, so the name lookup raises
an unhandled `NameError`. -/
def process_one_site_raw (env : ScanEnv) (r0 r1 : MergedRow) :
    Except ProcErr (Site × ScanState) :=
  let site_choice_feedback := slice_by_index env.choice_feedback r0.time r1.time
  if 1 < site_choice_feedback.length then
    .error (.assertionError "Multiple speaker choices in site interval")
  else
  let site_water_delivery := slice_by_index env.water_delivery r0.time r1.time
  if 1 < site_water_delivery.length then
    .error (.assertionError "Multiple water deliveries in site interval")
  else
  .error .nameError

/-- `for i in range(len(merged) - 1)` over consecutive row pairs, with the
source's loop body (`process_one_site_raw`). -/
def scan_sites_raw (env : ScanEnv) :
    List MergedRow → ScanState → Except ProcErr (List Site)
  | r0 :: r1 :: rest, st =>
    match process_one_site_raw env r0 r1 with
    | .error e => .error e
    | .ok (site, st') =>
      match scan_sites_raw env (r1 :: rest) st' with
      | .error e => .error e
      | .ok l => .ok (site :: l)
  | _, _ => .ok []

/-- `for i in range(len(merged) - 1)` over consecutive row pairs, with the
repaired loop body (`process_one_site`), accumulating the emitted records in
site order. -/
def scan_sites (raise_on_error : Bool) (env : ScanEnv) :
    List MergedRow → ℕ → ScanState → Except ProcErr (List Site)
  | r0 :: r1 :: rest, i, st =>
    match process_one_site raise_on_error env st r0 r1 i with
    | .error e => .error e
    | .ok (site, st') =>
      match scan_sites raise_on_error env (r1 :: rest) (i + 1) st' with
      | .error e => .error e
      | .ok l => .ok (site :: l)
  | _, _, _ => .ok []

/-- Lines 185–195: the initial scan state. -/
def initial_state (env : ScanEnv) : ScanState :=
  { current_friction := 0
    current_block_idx := some 0
    current_patch_idx := 0
    current_patch_in_block_idx := 0
    current_site_in_patch_idx := 0
    current_site_in_block_idx := 0
    site_by_type_in_patch_counter := counter_from_keys env.unique_site_labels }

/-- Lines 150–196 of `process`: the structural join, the field extractors,
the version-gated channel count, and the label vocabulary snapshot. -/
def pre_loop (ds : Dataset) : Except ProcErr (List MergedRow × ScanEnv) :=
  match build_merged ds with
  | .error e => .error e
  | .ok merged =>
    match get_olfactometer_channel_count ds.version with
    | .error e => .error e
    | .ok n =>
      .ok (merged,
        { version := ds.version
          choice_feedback := parse_speaker_choice_feedback ds
          water_delivery := parse_water_delivery ds
          reward_metadata := parse_reward_metadata ds
          odor_onset := parse_odor_onset ds
          friction := parse_friction ds
          olfactometer_channel_count := n
          wait_reward_outcome := parse_wait_reward_outcome ds
          unique_site_labels := unique_first [] (merged.map (fun r => r.data.label)) })

/-- `DatasetProcessor.process` exactly as written in the source: the loop body
reads the unbound `patch_state_at_reward`, so no iteration can complete
(`raise_on_error` is never consulted on any live path). -/
def process (ds : Dataset) (raise_on_error : Bool) : Except ProcErr (List Site) :=
  match pre_loop ds with
  | .error e => .error e
  | .ok (merged, env) => scan_sites_raw env merged (initial_state env)

/-- `DatasetProcessor.process` with the single dead statement (the line-224
read of the unbound `patch_state_at_reward`) removed, keeping line 228's
empty-table rebinding — the behaviour the rest of the loop body is written
for. -/
def process_fixed (ds : Dataset) (raise_on_error : Bool) : Except ProcErr (List Site) :=
  match pre_loop ds with
  | .error e => .error e
  | .ok (merged, env) => scan_sites raise_on_error env merged 0 (initial_state env)

deriving instance DecidableEq for Except

/-- Decidable check of the hypotheses under which the first loop iteration is
reached with both asserts passing: the pre-loop stage succeeds, there are at
least two joined site rows, and the first interval holds at most one
choice-feedback and at most one water-delivery event. -/
def reaches_first_interval_asserted (ds : Dataset) : Bool :=
  match pre_loop ds with
  | .error _ => false
  | .ok (merged, env) =>
    match merged with
    | r0 :: r1 :: _ =>
      decide ((slice_by_index env.choice_feedback r0.time r1.time).length ≤ 1)
        && decide ((slice_by_index env.water_delivery r0.time r1.time).length ≤ 1)
    | _ => false

/-- Decidable check that some site interval of the joined table contains more
than one choice-feedback event or more than one water-delivery event. -/
def has_violating_interval (ds : Dataset) : Bool :=
  match pre_loop ds with
  | .error _ => false
  | .ok (merged, env) =>
    (merged.zip merged.tail).any (fun p =>
      decide (1 < (slice_by_index env.choice_feedback p.1.time p.2.time).length)
        || decide (1 < (slice_by_index env.water_delivery p.1.time p.2.time).length))

def siteD (lbl : String) (pos : ℚ) (spec : Option OdorSpecification) : SiteData :=
  { label := lbl, start_position := pos, length := 10, odor_specification := spec }

def dsC1 : Dataset :=
  { version := ⟨0, 5, 0⟩
    active_site := [(10, siteD "OdorSite" 0 none), (20, siteD "OdorSite" 10 none)]
    active_patch := [(5, { label := "PatchA", state_index := 0, odor_specification := none })]
    block := [1]
    pwm_start := []
    output_set := []
    end_valve_state := []
    brake_current_set_point := []
    give_reward := []
    wait_reward_outcome := [] }

def dsC9 : Dataset :=
  { version := ⟨0, 5, 0⟩
    active_site := []
    active_patch := []
    block := []
    pwm_start := []
    output_set := []
    end_valve_state :=
      [(1, ⟨.write, false⟩), (2, ⟨.write, false⟩), (3, ⟨.write, true⟩),
       (4, ⟨.write, true⟩), (5, ⟨.write, false⟩), (6, ⟨.write, true⟩)]
    brake_current_set_point := []
    give_reward := []
    wait_reward_outcome := [] }

def dsC3 : Dataset :=
  { version := ⟨0, 5, 0⟩
    active_site :=
      [(10, siteD "OdorSite" 0 none), (20, siteD "OdorSite" 10 none),
       (30, siteD "OdorSite" 20 none), (40, siteD "OdorSite" 30 none)]
    active_patch :=
      [(5, { label := "PatchA", state_index := 0, odor_specification := none }),
       (30, { label := "PatchB", state_index := 1, odor_specification := none })]
    block := [1]
    pwm_start := []
    output_set := []
    end_valve_state := []
    brake_current_set_point := [(12, ⟨.write, 100⟩)]
    give_reward := []
    wait_reward_outcome := [] }

def patchA : PatchData := { label := "PatchA", state_index := 0, odor_specification := none }

def patchB : PatchData := { label := "PatchB", state_index := 1, odor_specification := none }

/-- A clean three-site dataset (one patch, one block, no anomalies). -/
def dsC2 : Dataset :=
  { version := ⟨0, 5, 0⟩
    active_site :=
      [(10, siteD "OdorSite" 0 none), (20, siteD "OdorSite" 10 none),
       (30, siteD "OdorSite" 20 none)]
    active_patch := [(5, patchA)]
    block := [1]
    pwm_start := []
    output_set := []
    end_valve_state := []
    brake_current_set_point := []
    give_reward := []
    wait_reward_outcome := [] }

/-- Two sites; the first specifies an odor whose only onset edge is logged
1 ms before the site start (inside the 2 ms pre-window). -/
def dsC5pre : Dataset :=
  { version := ⟨0, 5, 0⟩
    active_site := [(10, siteD "OdorSite" 0 (some ⟨0, 1⟩)), (20, siteD "InterSite" 10 none)]
    active_patch := [(5, patchA)]
    block := [1]
    pwm_start := []
    output_set := []
    end_valve_state := [(mkRat 9999 1000, ⟨.write, true⟩)]
    brake_current_set_point := []
    give_reward := []
    wait_reward_outcome := [] }

/-- Three sites; the first specifies an odor but has no onset edge anywhere
near it, the second has a proper onset edge inside its interval. -/
def dsC5missing : Dataset :=
  { version := ⟨0, 5, 0⟩
    active_site :=
      [(10, siteD "OdorSite" 0 (some ⟨0, 1⟩)), (20, siteD "OdorSite" 10 (some ⟨1, 1⟩)),
       (30, siteD "InterSite" 20 none)]
    active_patch := [(5, patchA)]
    block := [1]
    pwm_start := []
    output_set := []
    end_valve_state := [(21, ⟨.write, true⟩)]
    brake_current_set_point := []
    give_reward := []
    wait_reward_outcome := [] }

/-- Two sites; the first interval holds a `GiveReward` event with a zero
payload and a stray water-delivery pulse. -/
def dsC6 : Dataset :=
  { version := ⟨0, 5, 0⟩
    active_site := [(10, siteD "OdorSite" 0 none), (20, siteD "OdorSite" 10 none)]
    active_patch := [(5, patchA)]
    block := [1]
    pwm_start := []
    output_set := [(16, ⟨.write, true⟩)]
    end_valve_state := []
    brake_current_set_point := []
    give_reward := [(15, some 0)]
    wait_reward_outcome := [] }

/-- Two sites; the first interval holds two choice-feedback events. -/
def dsC7 : Dataset :=
  { version := ⟨0, 5, 0⟩
    active_site := [(10, siteD "OdorSite" 0 none), (20, siteD "OdorSite" 10 none)]
    active_patch := [(5, patchA)]
    block := [1]
    pwm_start := [(12, ⟨.write, true⟩), (13, ⟨.write, true⟩)]
    output_set := []
    end_valve_state := []
    brake_current_set_point := []
    give_reward := []
    wait_reward_outcome := [] }

/-- Three sites; two friction writes (values 5 then 7) inside the first
interval, none in the second. -/
def dsC8 : Dataset :=
  { version := ⟨0, 5, 0⟩
    active_site :=
      [(10, siteD "OdorSite" 0 none), (20, siteD "OdorSite" 10 none),
       (30, siteD "OdorSite" 20 none)]
    active_patch := [(5, patchA)]
    block := [1]
    pwm_start := []
    output_set := []
    end_valve_state := []
    brake_current_set_point := [(12, ⟨.write, 5⟩), (13, ⟨.write, 7⟩)]
    give_reward := []
    wait_reward_outcome := [] }

/-- A small sorted table for the slice-partition witness. -/
def slice_demo_table : List (Time × ℕ) := [(1, 10), (2, 20), (3, 30)]

/-- A concrete scan environment for exercising one loop-body step. -/
def env8 : ScanEnv :=
  { version := ⟨0, 5, 0⟩
    choice_feedback := []
    water_delivery := []
    reward_metadata := []
    odor_onset := []
    friction := [(12, 5), (13, 7)]
    olfactometer_channel_count := 3
    wait_reward_outcome := []
    unique_site_labels := ["OdorSite"] }

def mr0 : MergedRow :=
  { time := 10, data := siteD "OdorSite" 0 none, patch_data := patchA, patch_count := 0,
    patch_index := 0, block_count := some 0 }

def mr1 : MergedRow := { mr0 with time := 20 }

def st8 : ScanState := initial_state env8

/-- The record/state pair the loop-body step emits on `env8`. -/
def c8_step : Site × ScanState := (process_one_site true env8 st8 mr0 mr1 0).toOption.getD default

/-- The record list `process_fixed` produces on the clean dataset `dsC2`. -/
def c2_records : List Site := (process_fixed dsC2 true).toOption.getD []

/-- The record list `process_fixed` produces on `dsC6`. -/
def c6_records : List Site := (process_fixed dsC6 true).toOption.getD []

def c6_first : Site := c6_records.headI

/-! ### Theorems -/

theorem rat_abs_eq_abs (x : ℚ) : rat_abs x = |x| := by
  unfold rat_abs
  rcases lt_or_le x 0 with h | h
  · simp [h, abs_of_neg h]
  · simp [not_lt.mpr h, abs_of_nonneg h]

theorem rat_sub_eq_sub (a b : ℚ) : rat_sub a b = a - b := by
  unfold rat_sub
  have ha : (a.den : ℚ) ≠ 0 := Nat.cast_ne_zero.mpr a.den_nz
  have hb : (b.den : ℚ) ≠ 0 := Nat.cast_ne_zero.mpr b.den_nz
  rw [Rat.mkRat_eq_divInt, Rat.divInt_eq_div]
  push_cast
  conv_rhs => rw [← Rat.num_div_den a, ← Rat.num_div_den b, div_sub_div _ _ ha hb]
  ring_nf

/-! ### General lemmas about the embedding -/

theorem length_insert_by_time {α : Type} (x : Time × α) (l : List (Time × α)) :
    (insert_by_time x l).length = l.length + 1 := by
  induction l with
  | nil => rfl
  | cons y ys ih =>
    unfold insert_by_time
    split
    · simp [ih]
    · simp

theorem length_sort_by_time {α : Type} (l : List (Time × α)) :
    (sort_by_time l).length = l.length := by
  induction l with
  | nil => rfl
  | cons x xs ih => simp [sort_by_time, length_insert_by_time, ih]

theorem merge_rows_ok_length (patches : List (Time × (PatchData × ℕ)))
    (blocks : List (Time × (Unit × ℕ))) :
    ∀ (sites : List (Time × SiteData)) (l : List MergedRow),
      merge_rows patches blocks sites = .ok l → l.length = sites.length := by
  intro sites
  induction sites with
  | nil => intro l h; simp [merge_rows] at h; simp [← h]
  | cons r rest ih =>
    intro l h
    simp only [merge_rows] at h
    cases hm : merge_one patches blocks r with
    | error e => rw [hm] at h; exact absurd h (by simp)
    | ok m =>
      rw [hm] at h
      cases hr : merge_rows patches blocks rest with
      | error e => rw [hr] at h; exact absurd h (by simp)
      | ok l2 =>
        rw [hr] at h
        cases h
        simp [ih l2 hr]

theorem build_merged_ok_length (ds : Dataset) (l : List MergedRow)
    (h : build_merged ds = .ok l) : l.length = ds.active_site.length := by
  unfold build_merged at h
  rw [merge_rows_ok_length _ _ _ _ h, length_sort_by_time]

/-- The faithful loop body can only raise: either one of the two asserts, or
the `NameError` from the unbound `patch_state_at_reward`. -/
theorem process_one_site_raw_error (env : ScanEnv) (r0 r1 : MergedRow) :
    ∃ e, process_one_site_raw env r0 r1 = .error e := by
  simp only [process_one_site_raw]
  split
  · exact ⟨_, rfl⟩
  · split
    · exact ⟨_, rfl⟩
    · exact ⟨_, rfl⟩

/-- When the first interval passes both asserts, the faithful loop body raises
exactly the `NameError`. -/
theorem process_one_site_raw_nameError (env : ScanEnv) (r0 r1 : MergedRow)
    (hc : (slice_by_index env.choice_feedback r0.time r1.time).length ≤ 1)
    (hw : (slice_by_index env.water_delivery r0.time r1.time).length ≤ 1) :
    process_one_site_raw env r0 r1 = .error .nameError := by
  simp only [process_one_site_raw]
  rw [if_neg (by omega), if_neg (by omega)]

/-- The faithful scan over at least one interval pair always raises. -/
theorem scan_sites_raw_error (env : ScanEnv) (rows : List MergedRow) (st : ScanState)
    (h : 2 ≤ rows.length) : ∃ e, scan_sites_raw env rows st = .error e := by
  match rows with
  | [] => simp at h
  | [r] => simp at h
  | r0 :: r1 :: rest =>
    obtain ⟨e, he⟩ := process_one_site_raw_error env r0 r1
    exact ⟨e, by simp [scan_sites_raw, he]⟩

/-- The joined table has one row per `ActiveSite` row (`merge_asof` keeps
every left row). -/
theorem pre_loop_ok_length (ds : Dataset) (merged : List MergedRow) (env : ScanEnv)
    (hp : pre_loop ds = .ok (merged, env)) : merged.length = ds.active_site.length := by
  unfold pre_loop at hp
  cases hb : build_merged ds with
  | error e => rw [hb] at hp; exact absurd hp (by simp)
  | ok m =>
    rw [hb] at hp
    cases hc : get_olfactometer_channel_count ds.version with
    | error e => rw [hc] at hp; exact absurd hp (by simp)
    | ok n =>
      rw [hc] at hp
      cases hp
      exact build_merged_ok_length ds _ hb

/-- `process` as written never returns a record list once the loop body runs
at least once (i.e. whenever the dataset has at least two site rows). -/
theorem process_ne_ok (ds : Dataset) (raise_on_error : Bool)
    (h : 2 ≤ ds.active_site.length) : ∀ l, process ds raise_on_error ≠ .ok l := by
  intro l
  unfold process
  cases hp : pre_loop ds with
  | error e => simp
  | ok pair =>
    obtain ⟨merged, env⟩ := pair
    have hlen : merged.length = ds.active_site.length := pre_loop_ok_length ds merged env hp
    obtain ⟨e, he⟩ := scan_sites_raw_error env merged (initial_state env) (hlen ▸ h)
    simp [he]

/-- Inversion on a successful loop-body step: facts about the emitted record
and state that later theorems need (interval bounds, site index, the sticky
friction rule, the `has_reward` definition, and the passed asserts). -/
theorem process_one_site_ok_fields (raise_on_error : Bool) (env : ScanEnv) (st : ScanState)
    (r0 r1 : MergedRow) (i : ℕ) (site : Site) (st' : ScanState)
    (h : process_one_site raise_on_error env st r0 r1 i = .ok (site, st')) :
    site.site_index = i ∧
    site.start_time = r0.time ∧
    site.stop_time = r1.time ∧
    site.friction = (match (slice_by_index env.friction r0.time r1.time).getLast? with
      | some p => p.2
      | none => st.current_friction) ∧
    st'.current_friction = site.friction ∧
    site.has_reward = site.reward_onset_time.isSome ∧
    (slice_by_index env.choice_feedback r0.time r1.time).length ≤ 1 ∧
    (slice_by_index env.water_delivery r0.time r1.time).length ≤ 1 := by
  simp only [process_one_site] at h
  split at h
  · exact absurd h (by simp)
  · split at h
    · exact absurd h (by simp)
    · repeat' split at h
      any_goals exact Except.noConfusion h
      all_goals
        rw [Except.ok.injEq, Prod.mk.injEq] at h
        obtain ⟨h1, h2⟩ := h
        subst h1
        subst h2
        refine ⟨rfl, rfl, rfl, ?_, rfl, rfl, by omega, by omega⟩
        simp_all

/-- On a successful step, the emitted `reward_onset_time` is exactly what the
reward-resolution block computed for this interval. -/
theorem process_one_site_reward_eq (raise_on_error : Bool) (env : ScanEnv) (st : ScanState)
    (r0 r1 : MergedRow) (i : ℕ) (site : Site) (st' : ScanState)
    (h : process_one_site raise_on_error env st r0 r1 i = .ok (site, st')) :
    resolve_reward raise_on_error (slice_by_index env.reward_metadata r0.time r1.time)
      (slice_by_index env.water_delivery r0.time r1.time) = .ok site.reward_onset_time := by
  simp only [process_one_site] at h
  split at h
  · exact absurd h (by simp)
  · split at h
    · exact absurd h (by simp)
    · repeat' split at h
      any_goals exact Except.noConfusion h
      all_goals
        rw [Except.ok.injEq, Prod.mk.injEq] at h
        obtain ⟨h1, h2⟩ := h
        subst h1
        assumption

/-- On a successful step, the emitted `odor_onset_time` is exactly what the
odor-resolution block computed for this interval. -/
theorem process_one_site_odor_eq (raise_on_error : Bool) (env : ScanEnv) (st : ScanState)
    (r0 r1 : MergedRow) (i : ℕ) (site : Site) (st' : ScanState)
    (h : process_one_site raise_on_error env st r0 r1 i = .ok (site, st')) :
    resolve_odor_onset raise_on_error env.odor_onset
      (slice_by_index env.odor_onset r0.time r1.time) r0.data.odor_specification r0.time
      = .ok site.odor_onset_time := by
  simp only [process_one_site] at h
  split at h
  · exact absurd h (by simp)
  · split at h
    · exact absurd h (by simp)
    · repeat' split at h
      any_goals exact Except.noConfusion h
      all_goals
        rw [Except.ok.injEq, Prod.mk.injEq] at h
        obtain ⟨h1, h2⟩ := h
        subst h1
        assumption

/-- An all-zero-or-absent reward-metadata slice resolves to "no reward",
whatever the water-delivery slice holds. -/
theorem resolve_reward_all_zero (raise_on_error : Bool)
    (reward_metadata_sliced : List (Time × Option ℚ))
    (site_water_delivery : List (Time × Bool))
    (hz : reward_metadata_sliced.all (fun r => r.2.getD 0 == 0) = true) :
    resolve_reward raise_on_error reward_metadata_sliced site_water_delivery = .ok none := by
  simp only [resolve_reward]
  rw [if_pos (by simp [hz])]

/-- A successful scan emits one record per consecutive site pair. -/
theorem scan_sites_ok_length (raise_on_error : Bool) (env : ScanEnv) :
    ∀ (rows : List MergedRow) (i : ℕ) (st : ScanState) (l : List Site),
      scan_sites raise_on_error env rows i st = .ok l → l.length = rows.length - 1
  | [], _, _, l => by
    intro h
    simp only [scan_sites, Except.ok.injEq] at h
    simp [← h]
  | [r], _, _, l => by
    intro h
    simp only [scan_sites, Except.ok.injEq] at h
    simp [← h]
  | r0 :: r1 :: rest, i, st, l => by
    intro h
    simp only [scan_sites] at h
    split at h
    · exact Except.noConfusion h
    · rename_i site st2 hp
      split at h
      · exact Except.noConfusion h
      · rename_i l2 hs
        rw [Except.ok.injEq] at h
        subst h
        have ih := scan_sites_ok_length raise_on_error env (r1 :: rest) (i + 1) st2 l2 hs
        simp at ih ⊢
        omega

/-- A successful scan numbers its records consecutively from the starting
index: the record at position `j` carries `site_index = i + j`. -/
theorem scan_sites_ok_site_index (raise_on_error : Bool) (env : ScanEnv) :
    ∀ (rows : List MergedRow) (i : ℕ) (st : ScanState) (l : List Site),
      scan_sites raise_on_error env rows i st = .ok l →
      ∀ (j : ℕ) (hj : j < l.length), (l.get ⟨j, hj⟩).site_index = i + j
  | [], _, _, l => by
    intro h
    simp only [scan_sites, Except.ok.injEq] at h
    subst h
    intro j hj
    simp at hj
  | [r], _, _, l => by
    intro h
    simp only [scan_sites, Except.ok.injEq] at h
    subst h
    intro j hj
    simp at hj
  | r0 :: r1 :: rest, i, st, l => by
    intro h
    simp only [scan_sites] at h
    split at h
    · exact Except.noConfusion h
    · rename_i site st2 hp
      split at h
      · exact Except.noConfusion h
      · rename_i l2 hs
        rw [Except.ok.injEq] at h
        subst h
        intro j hj
        match j with
        | 0 =>
          have h0 := (process_one_site_ok_fields raise_on_error env st r0 r1 i site st2 hp).1
          simpa using h0
        | j + 1 =>
          have hj2 : j < l2.length := by simpa using hj
          have ih := scan_sites_ok_site_index raise_on_error env (r1 :: rest) (i + 1) st2 l2 hs
            j hj2
          rw [List.get_cons_succ, ih]
          omega

/-- A successful scan passed both per-interval asserts on every consecutive
pair of site rows it visited. -/
theorem scan_sites_ok_le_one (raise_on_error : Bool) (env : ScanEnv) :
    ∀ (rows : List MergedRow) (i : ℕ) (st : ScanState) (l : List Site),
      scan_sites raise_on_error env rows i st = .ok l →
      ∀ p ∈ rows.zip rows.tail,
        (slice_by_index env.choice_feedback p.1.time p.2.time).length ≤ 1 ∧
        (slice_by_index env.water_delivery p.1.time p.2.time).length ≤ 1
  | [], _, _, l => by intro _ p hp; simp at hp
  | [r], _, _, l => by intro _ p hp; simp at hp
  | r0 :: r1 :: rest, i, st, l => by
    intro h p hp
    simp only [scan_sites] at h
    split at h
    · exact Except.noConfusion h
    · rename_i site st2 hpr
      split at h
      · exact Except.noConfusion h
      · rename_i l2 hs
        rw [List.tail_cons, List.zip_cons_cons, List.mem_cons] at hp
        rcases hp with rfl | hp
        · have hf := process_one_site_ok_fields raise_on_error env st r0 r1 i site st2 hpr
          exact ⟨hf.2.2.2.2.2.2.1, hf.2.2.2.2.2.2.2⟩
        · exact scan_sites_ok_le_one raise_on_error env (r1 :: rest) (i + 1) st2 l2 hs p hp

/-- Every record a successful scan emits satisfies the `has_reward`
definition: true exactly when `reward_onset_time` is concrete. -/
theorem scan_sites_ok_has_reward (raise_on_error : Bool) (env : ScanEnv) :
    ∀ (rows : List MergedRow) (i : ℕ) (st : ScanState) (l : List Site),
      scan_sites raise_on_error env rows i st = .ok l →
      ∀ s ∈ l, s.has_reward = s.reward_onset_time.isSome
  | [], _, _, l => by
    intro h s hsl
    simp only [scan_sites, Except.ok.injEq] at h
    subst h; simp at hsl
  | [r], _, _, l => by
    intro h s hsl
    simp only [scan_sites, Except.ok.injEq] at h
    subst h; simp at hsl
  | r0 :: r1 :: rest, i, st, l => by
    intro h s hsl
    simp only [scan_sites] at h
    split at h
    · exact Except.noConfusion h
    · rename_i site st2 hpr
      split at h
      · exact Except.noConfusion h
      · rename_i l2 hs
        rw [Except.ok.injEq] at h
        subst h
        rw [List.mem_cons] at hsl
        rcases hsl with rfl | hsl
        · exact (process_one_site_ok_fields raise_on_error env st r0 r1 i s st2 hpr).2.2.2.2.2.1
        · exact scan_sites_ok_has_reward raise_on_error env (r1 :: rest) (i + 1) st2 l2 hs s hsl

/-- The pandas-`shift` formulation of the rising-edge filter agrees with the
explicit carried-previous-value recursion, for any initial previous value. -/
theorem rising_edges_zip_spec :
    ∀ (s : List (Time × Bool)) (p : Bool),
      (s.zip (p :: (s.map (fun r => r.2)).dropLast)).filterMap
        (fun q => if q.1.2 && !q.2 then some q.1 else none) = rising_edges_spec p s
  | [], p => by simp [rising_edges_spec]
  | [r], p => by
    obtain ⟨t, v⟩ := r
    cases v <;> cases p <;> simp [rising_edges_spec]
  | r :: x :: xs, p => by
    have hd : ((r :: x :: xs).map (fun r => r.2)).dropLast
        = r.2 :: ((x :: xs).map (fun r => r.2)).dropLast := rfl
    rw [hd, List.zip_cons_cons, List.filterMap_cons]
    have ih := rising_edges_zip_spec (x :: xs) r.2
    by_cases hc : (r.2 && !p) = true
    · simp only [rising_edges_spec, ih, hc]
      simp
    · simp only [rising_edges_spec, ih]
      rw [if_neg (by simpa using hc)]
      simp only [Bool.not_eq_true] at hc
      simp [hc]

/-- The source's rising-edge filter equals the spec semantics with the first
row counting as preceded by `false`. -/
theorem rising_edges_eq_spec (s : List (Time × Bool)) :
    rising_edges s = rising_edges_spec false s := by
  unfold rising_edges shift_fill_false
  exact rising_edges_zip_spec s false

/-- Membership characterization of `slice_by_index`: exactly the rows of the
table with `a ≤ t < b`. -/
theorem slice_by_index_mem {α : Type} (s : List (Time × α)) (a b : Time) (r : Time × α) :
    r ∈ slice_by_index s a b ↔ r ∈ s ∧ a ≤ r.1 ∧ r.1 < b := by
  simp [slice_by_index, List.mem_filter, and_assoc]

/-- Adjacent half-open slices of a time-sorted table concatenate to the
combined slice. -/
theorem slice_by_index_append_adjacent {α : Type} (a b c : Time) (hab : a ≤ b) (hbc : b ≤ c) :
    ∀ (s : List (Time × α)), s.Pairwise (fun x y => x.1 ≤ y.1) →
      slice_by_index s a b ++ slice_by_index s b c = slice_by_index s a c
  | [], _ => rfl
  | r :: rest, hp => by
    obtain ⟨hr, hrest⟩ := List.pairwise_cons.mp hp
    have ih := slice_by_index_append_adjacent a b c hab hbc rest hrest
    by_cases h1 : a ≤ r.1 ∧ r.1 < b
    · have e1 : slice_by_index (r :: rest) a b = r :: slice_by_index rest a b := by
        simp [slice_by_index, List.filter_cons, h1.1, h1.2]
      have e2 : slice_by_index (r :: rest) b c = slice_by_index rest b c := by
        simp [slice_by_index, List.filter_cons, not_le.mpr h1.2]
      have e3 : slice_by_index (r :: rest) a c = r :: slice_by_index rest a c := by
        simp [slice_by_index, List.filter_cons, h1.1, lt_of_lt_of_le h1.2 hbc]
      rw [e1, e2, e3, List.cons_append, ih]
    · by_cases h2 : b ≤ r.1 ∧ r.1 < c
      · have e1 : slice_by_index (r :: rest) a b = slice_by_index rest a b := by
          simp [slice_by_index, List.filter_cons, not_lt.mpr h2.1]
        have erest : slice_by_index rest a b = [] := by
          rw [slice_by_index, List.filter_eq_nil_iff]
          intro y hy
          have hby : b ≤ y.1 := le_trans h2.1 (hr y hy)
          simp [not_lt.mpr hby]
        have e2 : slice_by_index (r :: rest) b c = r :: slice_by_index rest b c := by
          simp [slice_by_index, List.filter_cons, h2.1, h2.2]
        have e3 : slice_by_index (r :: rest) a c = r :: slice_by_index rest a c := by
          simp [slice_by_index, List.filter_cons, le_trans hab h2.1, h2.2]
        have econg : slice_by_index rest b c = slice_by_index rest a c := by
          rw [slice_by_index, slice_by_index]
          apply List.filter_congr
          intro y hy
          have hby : b ≤ y.1 := le_trans h2.1 (hr y hy)
          simp [hby, le_trans hab hby]
        rw [e1, erest, e2, e3, List.nil_append, econg]
      · have hnac : ¬(a ≤ r.1 ∧ r.1 < c) := by
          rintro ⟨ha, hc⟩
          rcases lt_or_le r.1 b with hb | hb
          · exact h1 ⟨ha, hb⟩
          · exact h2 ⟨hb, hc⟩
        have e1 : slice_by_index (r :: rest) a b = slice_by_index rest a b := by
          rw [slice_by_index, slice_by_index, List.filter_cons, if_neg (by simpa using h1)]
        have e2 : slice_by_index (r :: rest) b c = slice_by_index rest b c := by
          rw [slice_by_index, slice_by_index, List.filter_cons, if_neg (by simpa using h2)]
        have e3 : slice_by_index (r :: rest) a c = slice_by_index rest a c := by
          rw [slice_by_index, slice_by_index, List.filter_cons, if_neg (by simpa using hnac)]
        rw [e1, e2, e3, ih]

/-- In a `≤`-sorted list every element is at most the last element. -/
theorem sorted_le_getLast : ∀ (l : List ℚ), l.Pairwise (fun x y => x ≤ y) →
    ∀ x ∈ l, ∀ (h : l ≠ []), x ≤ l.getLast h
  | [], _, x, hx, h => absurd rfl h
  | r :: rest, hp, x, hx, h => by
    obtain ⟨hr, hrest⟩ := List.pairwise_cons.mp hp
    rcases List.mem_cons.mp hx with rfl | hx
    · cases rest with
      | nil => simp [List.getLast]
      | cons y ys =>
        rw [List.getLast_cons (by simp)]
        exact hr _ (List.getLast_mem (by simp))
    · have hne : rest ≠ [] := List.ne_nil_of_mem hx
      rw [List.getLast_cons hne]
      exact sorted_le_getLast rest hrest x hx hne

/-- In a `≤`-sorted list the head is at most every element. -/
theorem sorted_head_le (r : ℚ) (rest : List ℚ)
    (hp : (r :: rest).Pairwise (fun x y => x ≤ y)) : ∀ x ∈ r :: rest, r ≤ x := by
  obtain ⟨hr, _⟩ := List.pairwise_cons.mp hp
  intro x hx
  rcases List.mem_cons.mp hx with rfl | hx
  · exact le_refl x
  · exact hr x hx

theorem takeWhile_lt (a : List ℚ) (t : ℚ) :
    ∀ x ∈ a.takeWhile (fun x => decide (x < t)), x < t := by
  intro x hx
  simpa using List.mem_takeWhile_imp hx

theorem dropWhile_ge (t : ℚ) : ∀ (a : List ℚ), a.Pairwise (fun x y => x ≤ y) →
    ∀ x ∈ a.dropWhile (fun x => decide (x < t)), t ≤ x
  | [], _, x, hx => by simp at hx
  | r :: rest, hp, x, hx => by
    obtain ⟨hr, hrest⟩ := List.pairwise_cons.mp hp
    by_cases hc : r < t
    · rw [List.dropWhile_cons, if_pos (by simpa using hc)] at hx
      exact dropWhile_ge t rest hrest x hx
    · rw [List.dropWhile_cons, if_neg (by simpa using hc)] at hx
      rcases List.mem_cons.mp hx with rfl | hx
      · exact not_lt.mp hc
      · exact le_trans (not_lt.mp hc) (hr x hx)

/-- On a sorted list, the `searchsorted` insertion point is the length of the
strictly-below prefix. -/
theorem searchsorted_left_eq (t : ℚ) : ∀ (a : List ℚ), a.Pairwise (fun x y => x ≤ y) →
    searchsorted_left a t = (a.takeWhile (fun x => decide (x < t))).length
  | [], _ => rfl
  | r :: rest, hp => by
    obtain ⟨hr, hrest⟩ := List.pairwise_cons.mp hp
    have ih := searchsorted_left_eq t rest hrest
    by_cases hc : r < t
    · rw [searchsorted_left, List.countP_cons, List.takeWhile_cons, if_pos (by simpa using hc)]
      rw [searchsorted_left] at ih
      simp [ih, hc]
    · have hz : List.countP (fun x => decide (x < t)) rest = 0 := by
        rw [List.countP_eq_zero]
        intro y hy
        simp only [decide_eq_true_eq, not_lt]
        exact le_trans (not_lt.mp hc) (hr y hy)
      rw [searchsorted_left, List.countP_cons, List.takeWhile_cons, if_neg (by simpa using hc)]
      simp [hz, hc]

/-- For a sorted, nonempty index, `get_closest_from_timestamp` returns a
member of the index minimizing the absolute distance to the target, and
among equal-distance candidates it returns the largest (i.e. ties break
toward the right candidate, the first index value at or above the target). -/
theorem get_closest_spec (a : List ℚ) (t : ℚ)
    (hs : a.Pairwise (fun x y => x ≤ y)) (hne : a ≠ []) :
    ∃ c, get_closest_from_timestamp a t = some c ∧ c ∈ a ∧
      (∀ x ∈ a, |c - t| ≤ |x - t|) ∧ (∀ x ∈ a, |x - t| = |c - t| → x ≤ c) := by
  match a, hs, hne with
  | a0 :: arest, hs, _ =>
    set A := a0 :: arest with hA
    set L := A.takeWhile (fun x => decide (x < t)) with hLdef
    set R := A.dropWhile (fun x => decide (x < t)) with hRdef
    have hsplit : L ++ R = A := List.takeWhile_append_dropWhile (fun x => decide (x < t)) A
    have hLlt : ∀ x ∈ L, x < t := takeWhile_lt A t
    have hRge : ∀ x ∈ R, t ≤ x := dropWhile_ge t A hs
    have hk : searchsorted_left A t = L.length := searchsorted_left_eq t A hs
    have hlen : L.length + R.length = A.length := by
      rw [← hsplit, List.length_append]
    have hsortLR : (L ++ R).Pairwise (fun x y => x ≤ y) := by rw [hsplit]; exact hs
    obtain ⟨hpL, hpR, hLR⟩ := List.pairwise_append.mp hsortLR
    have hApos : 0 < A.length := by simp [hA]
    have heval : get_closest_from_timestamp A t =
        some (if rat_abs (rat_sub (A.getD (Nat.min (searchsorted_left A t) (A.length - 1)) 0) t)
                ≤ rat_abs (rat_sub (A.getD (Nat.min (searchsorted_left A t - 1) (A.length - 1)) 0) t)
              then A.getD (Nat.min (searchsorted_left A t) (A.length - 1)) 0
              else A.getD (Nat.min (searchsorted_left A t - 1) (A.length - 1)) 0) := rfl
    rcases hRnil : R with _ | ⟨rh, rtail⟩
    · -- no element is ≥ t: both clipped indices land on the last element
      have hLA : L = A := by rw [← hsplit, hRnil, List.append_nil]
      have hAne : A ≠ [] := by simp [hA]
      have hkA : searchsorted_left A t = A.length := by rw [hk, hLA]
      have hmin1 : Nat.min (searchsorted_left A t) (A.length - 1) = A.length - 1 := by
        rw [hkA]; exact Nat.min_eq_right (by omega)
      have hmin2 : Nat.min (searchsorted_left A t - 1) (A.length - 1) = A.length - 1 := by
        rw [hkA]; exact Nat.min_self _
      have hvget : A.getD (A.length - 1) 0 = A.getLast hAne := by
        rw [List.getD_eq_get A 0 (by omega)]
        exact (List.getLast_eq_get A hAne).symm
      have hglt : A.getLast hAne < t := hLlt _ (by rw [hLA] at hLlt ⊢; exact List.getLast_mem hAne)
      refine ⟨A.getLast hAne, ?_, List.getLast_mem hAne, ?_, ?_⟩
      · rw [heval, hmin1, hmin2, ite_self, hvget]
      · intro x hx
        have hxlt : x < t := hLlt x (by rw [hLA]; exact hx)
        have hxle : x ≤ A.getLast hAne := sorted_le_getLast A hs x hx hAne
        rw [abs_of_neg (by linarith), abs_of_neg (by linarith)]
        linarith
      · intro x hx _
        exact sorted_le_getLast A hs x hx hAne
    · rcases hLnil : L with _ | ⟨l0, ltail⟩
      · -- every element is ≥ t: both clipped indices land on the head
        have hRA : R = A := by rw [← hsplit, hLnil, List.nil_append]
        have hk0 : searchsorted_left A t = 0 := by rw [hk, hLnil]; rfl
        have hmin1 : Nat.min (searchsorted_left A t) (A.length - 1) = 0 := by
          rw [hk0]; exact Nat.zero_min _
        have hmin2 : Nat.min (searchsorted_left A t - 1) (A.length - 1) = 0 := by
          rw [hk0]; exact Nat.zero_min _
        have ha0mem : a0 ∈ A := by rw [hA]; exact List.mem_cons_self a0 arest
        have ha0ge : t ≤ a0 := hRge a0 (by rw [hRA]; exact ha0mem)
        refine ⟨a0, ?_, ha0mem, ?_, ?_⟩
        · rw [heval, hmin1, hmin2, ite_self, hA]; rfl
        · intro x hx
          have hxge : t ≤ x := hRge x (by rw [hRA]; exact hx)
          have ha0le : a0 ≤ x := sorted_head_le a0 arest hs x hx
          rw [abs_of_nonneg (by linarith), abs_of_nonneg (by linarith)]
          linarith
        · intro x hx heq
          have hxge : t ≤ x := hRge x (by rw [hRA]; exact hx)
          have ha0le : a0 ≤ x := sorted_head_le a0 arest hs x hx
          rw [abs_of_nonneg (by linarith), abs_of_nonneg (by linarith)] at heq
          linarith
      · -- the target is bracketed: idx_left is the first ≥ t, idx_right the last < t
        have hLne : L ≠ [] := by rw [hLnil]; simp
        have hkpos : 1 ≤ L.length := by rw [hLnil]; simp
        have hkn : L.length < A.length := by
          rw [← hlen, hRnil]; simp
        have hmin1 : Nat.min (searchsorted_left A t) (A.length - 1) = L.length := by
          rw [hk]; exact Nat.min_eq_left (by omega)
        have hmin2 : Nat.min (searchsorted_left A t - 1) (A.length - 1) = L.length - 1 := by
          rw [hk]; exact Nat.min_eq_left (by omega)
        have hvL : A.getD L.length 0 = rh := by
          rw [← hsplit, List.getD_append_right L R 0 L.length (le_refl L.length)]
          rw [hRnil]
          simp
        have hvR : A.getD (L.length - 1) 0 = L.getLast hLne := by
          rw [← hsplit, List.getD_append L R 0 (L.length - 1) (by omega)]
          rw [List.getD_eq_get L 0 (by omega)]
          exact (List.getLast_eq_get L hLne).symm
        have hvRmem : L.getLast hLne ∈ L := List.getLast_mem hLne
        have hvRlt : L.getLast hLne < t := hLlt _ hvRmem
        have hrhmem : rh ∈ R := by rw [hRnil]; exact List.mem_cons_self rh rtail
        have hrhge : t ≤ rh := hRge rh hrhmem
        have hmaxL : ∀ x ∈ L, x ≤ L.getLast hLne := fun x hx => sorted_le_getLast L hpL x hx hLne
        have hminR : ∀ x ∈ R, rh ≤ x := by
          intro x hx
          rw [hRnil] at hx hpR
          exact sorted_head_le rh rtail hpR x hx
        have hcondL : rat_abs (rat_sub rh t) = |rh - t| := by rw [rat_sub_eq_sub, rat_abs_eq_abs]
        have hcondR : rat_abs (rat_sub (L.getLast hLne) t) = |L.getLast hLne - t| := by
          rw [rat_sub_eq_sub, rat_abs_eq_abs]
        have habsL : |rh - t| = rh - t := abs_of_nonneg (by linarith)
        have habsR : |L.getLast hLne - t| = t - L.getLast hLne := by
          rw [abs_of_neg (by linarith)]; ring
        have hmemrh : rh ∈ A := by rw [← hsplit]; exact List.mem_append_right L hrhmem
        have hmemvR : L.getLast hLne ∈ A := by rw [← hsplit]; exact List.mem_append_left R hvRmem
        by_cases hif : rat_abs (rat_sub (A.getD (Nat.min (searchsorted_left A t) (A.length - 1)) 0) t)
            ≤ rat_abs (rat_sub (A.getD (Nat.min (searchsorted_left A t - 1) (A.length - 1)) 0) t)
        · have hifq : |rh - t| ≤ |L.getLast hLne - t| := by
            rw [hmin1, hvL, hmin2, hvR, hcondL, hcondR] at hif
            exact hif
          refine ⟨rh, ?_, hmemrh, ?_, ?_⟩
          · rw [heval, if_pos hif, hmin1, hvL]
          · intro x hx
            rw [← hsplit] at hx
            rcases List.mem_append.mp hx with hxL | hxR
            · have hxlt : x < t := hLlt x hxL
              have hxle : x ≤ L.getLast hLne := hmaxL x hxL
              rw [habsL, abs_of_neg (show x - t < 0 by linarith)]
              rw [habsL, habsR] at hifq
              linarith
            · have hxge : t ≤ x := hRge x hxR
              have hrhle : rh ≤ x := hminR x hxR
              rw [habsL, abs_of_nonneg (show (0 : ℚ) ≤ x - t by linarith)]
              linarith
          · intro x hx heq
            rw [← hsplit] at hx
            rcases List.mem_append.mp hx with hxL | hxR
            · have hxlt : x < t := hLlt x hxL
              linarith
            · have hxge : t ≤ x := hRge x hxR
              rw [abs_of_nonneg (by linarith), habsL] at heq
              linarith
        · have hifq : |L.getLast hLne - t| < |rh - t| := by
            rw [hmin1, hvL, hmin2, hvR, hcondL, hcondR] at hif
            exact not_le.mp hif
          refine ⟨L.getLast hLne, ?_, hmemvR, ?_, ?_⟩
          · rw [heval, if_neg hif, hmin2, hvR]
          · intro x hx
            rw [← hsplit] at hx
            rcases List.mem_append.mp hx with hxL | hxR
            · have hxlt : x < t := hLlt x hxL
              have hxle : x ≤ L.getLast hLne := hmaxL x hxL
              rw [habsR, abs_of_neg (show x - t < 0 by linarith)]
              linarith
            · have hxge : t ≤ x := hRge x hxR
              have hrhle : rh ≤ x := hminR x hxR
              rw [habsR, abs_of_nonneg (show (0 : ℚ) ≤ x - t by linarith)]
              rw [habsL, habsR] at hifq
              linarith
          · intro x hx heq
            rw [← hsplit] at hx
            rcases List.mem_append.mp hx with hxL | hxR
            · have hxlt : x < t := hLlt x hxL
              have hxle : x ≤ L.getLast hLne := hmaxL x hxL
              rw [abs_of_neg (by linarith), habsR] at heq
              linarith
            · have hxge : t ≤ x := hRge x hxR
              have hrhle : rh ≤ x := hminR x hxR
              rw [abs_of_nonneg (by linarith), habsR] at heq
              rw [habsL, habsR] at hifq
              linarith

/-! ### Claim theorems -/

/-- C1: for every dataset whose joined ActiveSite table has at least 2 rows,
`process` raises an unhandled error and never returns a trial-record list,
regardless of `raise_on_error`; when the pre-loop stage succeeds and the
first interval passes the two asserts, the error is precisely the `NameError`
from reading the unassigned local `patch_state_at_reward` on the first loop
iteration. -/
theorem C1_process_reads_unbound_name (ds : Dataset) (raise_on_error : Bool) :
    (2 ≤ ds.active_site.length → ∀ l, process ds raise_on_error ≠ .ok l) ∧
    (reaches_first_interval_asserted ds = true →
      process ds raise_on_error = .error .nameError) ∧
    process ds true = process ds false := by
  refine ⟨fun h => process_ne_ok ds raise_on_error h, ?_, rfl⟩
  intro h
  unfold reaches_first_interval_asserted at h
  unfold process
  cases hp : pre_loop ds with
  | error e => rw [hp] at h; simp at h
  | ok pair =>
    obtain ⟨merged, env⟩ := pair
    rw [hp] at h
    cases merged with
    | nil => simp at h
    | cons r0 tail =>
      cases tail with
      | nil => simp at h
      | cons r1 rest =>
        simp only [Bool.and_eq_true, decide_eq_true_eq] at h
        simp only [scan_sites_raw]
        rw [process_one_site_raw_nameError env r0 r1 h.1 h.2]

theorem C1_process_reads_unbound_name_witness :
    2 ≤ dsC1.active_site.length ∧ reaches_first_interval_asserted dsC1 = true ∧
    process dsC1 true = .error .nameError ∧ process dsC1 false = .error .nameError :=
  ⟨by decide, by decide, (C1_process_reads_unbound_name dsC1 true).2.1 (by decide),
    (C1_process_reads_unbound_name dsC1 false).2.1 (by decide)⟩

/-- C2: with the dead line-224 read removed (`process_fixed`), every
successful run over a dataset with at least one site row returns exactly
`len(ActiveSite) - 1` records, numbered `site_index = 0, 1, ...` in site
order; the code as written (`process`) instead raises the `NameError` even on
the clean dataset `dsC2`, on which the repaired scan returns its 2 = 3 - 1
records. -/
theorem C2_clean_dataset_record_count :
    (∀ (ds : Dataset) (raise_on_error : Bool) (l : List Site),
        process_fixed ds raise_on_error = .ok l → 1 ≤ ds.active_site.length →
        l.length + 1 = ds.active_site.length ∧
        ∀ (j : ℕ) (hj : j < l.length), (l.get ⟨j, hj⟩).site_index = j) ∧
    process dsC2 true = .error .nameError ∧
    process_fixed dsC2 true = .ok c2_records ∧ c2_records.length = 2 := by
  refine ⟨?_, by decide, by decide, by decide⟩
  intro ds raise_on_error l hok hlen1
  unfold process_fixed at hok
  cases hp : pre_loop ds with
  | error e => rw [hp] at hok; exact absurd hok (by simp)
  | ok pair =>
    obtain ⟨merged, env⟩ := pair
    rw [hp] at hok
    have hml : merged.length = ds.active_site.length := pre_loop_ok_length ds merged env hp
    have hl := scan_sites_ok_length raise_on_error env merged 0 (initial_state env) l hok
    constructor
    · omega
    · intro j hj
      have hsi := scan_sites_ok_site_index raise_on_error env merged 0 (initial_state env) l hok j hj
      simpa using hsi

theorem C2_clean_dataset_record_count_witness :
    process_fixed dsC2 true = .ok c2_records ∧ 1 ≤ dsC2.active_site.length ∧
    c2_records.length + 1 = dsC2.active_site.length :=
  ⟨by decide, by decide,
    (C2_clean_dataset_record_count.1 dsC2 true c2_records (by decide) (by decide)).1⟩

/-- C3: on the spec's end-to-end scenario (three complete sites, the patch
changing at the third, one block), the code as written raises the `NameError`;
with the dead read removed it emits `site_in_patch_index = [1, 2, 0]` — not
the `[0, 1, 0]` the claim states, because the counter is incremented eagerly
before emission and the initial patch is never detected as a patch change, so
the first patch's sites are numbered from 1 while later patches are numbered
from 0 — and `patch_in_block_index = [0, 0, 1]` as the claim states. -/
theorem C3_scenario_site_in_patch_indices :
    process dsC3 true = .error .nameError ∧
    (process_fixed dsC3 true).map (fun l => l.map (fun s => s.site_in_patch_index))
      = .ok [1, 2, 0] ∧
    (process_fixed dsC3 true).map (fun l => l.map (fun s => s.patch_in_block_index))
      = .ok [0, 0, 1] ∧
    (process_fixed dsC3 true).map (fun l => l.map (fun s => s.site_in_patch_index))
      ≠ .ok [0, 1, 0] := by
  refine ⟨by decide, by decide, by decide, by decide⟩

/-- C4 counterexample: the target 1 is exactly equidistant between the two
neighbouring index values 0 and 2, yet mode "closest" returns 2 — the right
candidate (larger timestamp) — not the left candidate 0 the claim states. -/
theorem C4_left_tie_counterexample :
    |(0 : ℚ) - 1| = |(2 : ℚ) - 1| ∧
    get_closest_from_timestamp [0, 2] 1 = some 2 ∧
    ¬ get_closest_from_timestamp [0, 2] 1 = some 0 := by
  refine ⟨?_, by decide, by decide⟩
  have h0 : (0 : ℚ) - 1 = -1 := by norm_num
  have h2 : (2 : ℚ) - 1 = 1 := by norm_num
  rw [h0, h2, abs_neg]

/-- C4 (amended): for every sorted nonempty index and every target,
mode "closest" returns an index value minimizing the absolute distance to the
target, and when the target is exactly equidistant between two neighbouring
index values it returns the right candidate — the larger timestamp (the
returned value is the largest among all minimizers). -/
theorem C4_closest_minimizes_right_tie (a : List ℚ) (t : ℚ)
    (hs : a.Pairwise (fun x y => x ≤ y)) (hne : a ≠ []) :
    ∃ c, get_closest_from_timestamp a t = some c ∧ c ∈ a ∧
      (∀ x ∈ a, |c - t| ≤ |x - t|) ∧ (∀ x ∈ a, |x - t| = |c - t| → x ≤ c) :=
  get_closest_spec a t hs hne

theorem C4_closest_minimizes_right_tie_witness :
    ([(0 : ℚ), 2].Pairwise (fun x y => x ≤ y)) ∧ (([(0 : ℚ), 2] : List ℚ) ≠ []) ∧
    (∃ c, get_closest_from_timestamp [0, 2] 1 = some c ∧ c ∈ ([0, 2] : List ℚ) ∧
      (∀ x ∈ ([0, 2] : List ℚ), |c - 1| ≤ |x - 1|) ∧
      (∀ x ∈ ([0, 2] : List ℚ), |x - 1| = |c - 1| → x ≤ c)) :=
  ⟨by decide, by decide, C4_closest_minimizes_right_tie [0, 2] 1 (by decide) (by decide)⟩

/-- C5: the odor-onset edge-case handling sits after the line-224 read of the
unbound name, so the code as written raises the `NameError` first; with the
dead read removed the handling behaves as claimed: an onset 1 ms before the
site start yields the site's own start time, a site with no onset anywhere
raises `DatasetProcessorError` under `raise_on_error = true`, and under
`raise_on_error = false` it records the onset as absent while the following
site's onset is unaffected. -/
theorem C5_odor_onset_edge_case :
    process dsC5pre true = .error .nameError ∧
    (process_fixed dsC5pre true).map (fun l => l.map (fun s => s.odor_onset_time))
      = .ok [some 10] ∧
    process_fixed dsC5missing true
      = .error (.datasetProcessorError "No odor onset found in site interval") ∧
    (process_fixed dsC5missing false).map (fun l => l.map (fun s => s.odor_onset_time))
      = .ok [none, some 21] := by
  refine ⟨by decide, by decide, by decide, by decide⟩

/-- C6: reward resolution sits after the line-224 read of the unbound name,
so the code as written raises the `NameError` first; with the dead read
removed, an interval whose reward-metadata slice is empty or all-zero/absent
emits `reward_onset_time = none` and `has_reward = false` whatever the
water-delivery slice holds (manual-trigger immunity), and every emitted
record has `has_reward` true exactly when `reward_onset_time` is concrete. -/
theorem C6_manual_trigger_immunity :
    (∀ (raise_on_error : Bool) (env : ScanEnv) (st : ScanState) (r0 r1 : MergedRow) (i : ℕ)
        (site : Site) (st' : ScanState),
        (slice_by_index env.reward_metadata r0.time r1.time).all
          (fun r => r.2.getD 0 == 0) = true →
        process_one_site raise_on_error env st r0 r1 i = .ok (site, st') →
        site.reward_onset_time = none ∧ site.has_reward = false) ∧
    (∀ (ds : Dataset) (raise_on_error : Bool) (l : List Site),
        process_fixed ds raise_on_error = .ok l →
        ∀ s ∈ l, s.has_reward = s.reward_onset_time.isSome) ∧
    process dsC6 true = .error .nameError ∧
    (process_fixed dsC6 true).map (fun l => l.map (fun s => (s.reward_onset_time, s.has_reward)))
      = .ok [(none, false)] := by
  refine ⟨?_, ?_, by decide, by decide⟩
  · intro raise_on_error env st r0 r1 i site st' hz hok
    have hr := process_one_site_reward_eq raise_on_error env st r0 r1 i site st' hok
    rw [resolve_reward_all_zero raise_on_error _ _ hz] at hr
    have hrn : site.reward_onset_time = none := by
      injection hr with hr
      exact hr.symm
    have hhr := (process_one_site_ok_fields raise_on_error env st r0 r1 i site st' hok).2.2.2.2.2.1
    refine ⟨hrn, ?_⟩
    rw [hhr, hrn]
    rfl
  · intro ds raise_on_error l hok s hsl
    unfold process_fixed at hok
    cases hp : pre_loop ds with
    | error e => rw [hp] at hok; exact absurd hok (by simp)
    | ok pair =>
      obtain ⟨merged, env⟩ := pair
      rw [hp] at hok
      exact scan_sites_ok_has_reward raise_on_error env merged 0 (initial_state env) l hok s hsl

theorem C6_manual_trigger_immunity_witness :
    process_fixed dsC6 true = .ok c6_records ∧ c6_first ∈ c6_records ∧
    c6_first.has_reward = c6_first.reward_onset_time.isSome :=
  ⟨by decide, by decide,
    C6_manual_trigger_immunity.2.1 dsC6 true c6_records (by decide) c6_first (by decide)⟩

/-- C7: whenever some site interval of the joined table holds more than one
choice-feedback event or more than one water-delivery event, `process` never
returns a record list (it raises) and its outcome does not depend on
`raise_on_error`; the same holds for the repaired scan `process_fixed`, whose
per-interval asserts are what fire. -/
theorem C7_multiple_events_always_raise (ds : Dataset) (raise_on_error : Bool)
    (h : has_violating_interval ds = true) :
    (∀ l, process ds raise_on_error ≠ .ok l) ∧
    (∀ l, process_fixed ds raise_on_error ≠ .ok l) ∧
    process ds true = process ds false := by
  unfold has_violating_interval at h
  cases hp : pre_loop ds with
  | error e => rw [hp] at h; simp at h
  | ok pair =>
    obtain ⟨merged, env⟩ := pair
    rw [hp] at h
    rw [List.any_eq_true] at h
    obtain ⟨p, hpmem, hviol⟩ := h
    simp only [Bool.or_eq_true, decide_eq_true_eq] at hviol
    have hlen2 : 2 ≤ merged.length := by
      cases merged with
      | nil => simp at hpmem
      | cons r0 tail =>
        cases tail with
        | nil => simp at hpmem
        | cons r1 rest => simp
    refine ⟨?_, ?_, rfl⟩
    · intro l
      unfold process
      rw [hp]
      obtain ⟨e, he⟩ := scan_sites_raw_error env merged (initial_state env) hlen2
      simp [he]
    · intro l hok
      unfold process_fixed at hok
      rw [hp] at hok
      have hle := scan_sites_ok_le_one raise_on_error env merged 0 (initial_state env) l hok p hpmem
      rcases hviol with hv | hv
      · exact (not_le.mpr hv) hle.1
      · exact (not_le.mpr hv) hle.2

theorem C7_multiple_events_always_raise_witness :
    has_violating_interval dsC7 = true ∧ process_fixed dsC7 true ≠ .ok [] ∧
    process dsC7 true = process dsC7 false :=
  ⟨by decide, (C7_multiple_events_always_raise dsC7 true (by decide)).2.1 [],
    (C7_multiple_events_always_raise dsC7 true (by decide)).2.2⟩

/-- C8: friction stickiness sits after the line-224 read of the unbound name,
so the code as written raises the `NameError` before emitting anything; the
loop body itself (with the dead read removed) implements exactly the claimed
rule: a record's friction is the last friction-change value inside its
interval when one exists, otherwise the running value carried in from the
previous interval, and the running value starts at 0; end to end the repaired
scan turns two friction writes (5 then 7) in the first of two intervals into
frictions [7, 7]. -/
theorem C8_sticky_friction :
    (∀ (raise_on_error : Bool) (env : ScanEnv) (st : ScanState) (r0 r1 : MergedRow) (i : ℕ)
        (site : Site) (st' : ScanState),
        process_one_site raise_on_error env st r0 r1 i = .ok (site, st') →
        site.friction = (match (slice_by_index env.friction r0.time r1.time).getLast? with
          | some p => p.2
          | none => st.current_friction) ∧
        st'.current_friction = site.friction) ∧
    (∀ env : ScanEnv, (initial_state env).current_friction = 0) ∧
    process dsC8 true = .error .nameError ∧
    (process_fixed dsC8 true).map (fun l => l.map (fun s => s.friction)) = .ok [7, 7] := by
  refine ⟨?_, fun env => rfl, by decide, by decide⟩
  intro raise_on_error env st r0 r1 i site st' hok
  have hf := process_one_site_ok_fields raise_on_error env st r0 r1 i site st' hok
  exact ⟨hf.2.2.2.1, hf.2.2.2.2.1⟩

theorem C8_sticky_friction_witness :
    process_one_site true env8 st8 mr0 mr1 0 = .ok c8_step ∧
    (slice_by_index env8.friction mr0.time mr1.time).getLast? = some (13, 7) ∧
    c8_step.1.friction = 7 ∧ c8_step.2.current_friction = c8_step.1.friction :=
  ⟨by decide, by decide, by decide,
    (C8_sticky_friction.1 true env8 st8 mr0 mr1 0 c8_step.1 c8_step.2 (by decide)).2⟩

/-- C9: the rising-edge detector keeps exactly the rows whose valve bit is
asserted and was not asserted at the immediately preceding row (the first row
counting as preceded by false): on the WRITE series [F, F, T, T, F, T] at
times 1..6 it keeps only the 3rd and 6th entries, and in general the
pandas-`shift` filter equals the carried-previous-value semantics. -/
theorem C9_rising_edge_detector :
    parse_odor_onset dsC9 = [(3, true), (6, true)] ∧
    (∀ s : List (Time × Bool), rising_edges s = rising_edges_spec false s) :=
  ⟨by decide, rising_edges_eq_spec⟩

/-- C10: `slice_by_index` returns exactly the rows with
`start ≤ timestamp < end`; on a time-sorted table, for `a ≤ b ≤ c` the two
adjacent slices concatenate to the combined slice, and no row lies in both
adjacent slices. -/
theorem C10_slice_partition {α : Type} (s : List (Time × α)) (a b c : Time)
    (hab : a ≤ b) (hbc : b ≤ c) (hs : s.Pairwise (fun x y => x.1 ≤ y.1)) :
    (∀ r : Time × α, r ∈ slice_by_index s a c ↔ r ∈ s ∧ a ≤ r.1 ∧ r.1 < c) ∧
    slice_by_index s a b ++ slice_by_index s b c = slice_by_index s a c ∧
    (∀ r : Time × α, r ∈ slice_by_index s a b → r ∉ slice_by_index s b c) := by
  refine ⟨fun r => slice_by_index_mem s a c r,
    slice_by_index_append_adjacent a b c hab hbc s hs, ?_⟩
  intro r h1 h2
  have m1 := (slice_by_index_mem s a b r).mp h1
  have m2 := (slice_by_index_mem s b c r).mp h2
  exact absurd m2.2.1 (not_le.mpr m1.2.2)

theorem C10_slice_partition_witness :
    (1 : ℚ) ≤ 2 ∧ (2 : ℚ) ≤ 4 ∧
    slice_demo_table.Pairwise (fun x y => x.1 ≤ y.1) ∧
    slice_by_index slice_demo_table 1 2 ++ slice_by_index slice_demo_table 2 4
      = slice_by_index slice_demo_table 1 4 :=
  ⟨by decide, by decide, by decide,
    (C10_slice_partition slice_demo_table 1 2 4 (by decide) (by decide) (by decide)).2.1⟩

end VRForaging
